import Mathlib

/-!
Verification of the flow execution engine of the agent-builder workflow
repository.  The definitions below are a shallow embedding of the
TypeScript source: `getExecutionOrder`, `runFlow` and `onConnect` from the
AgentBuilder component, the numeric parameter parsing of the gemini API
route, and the `topK` parsing of the pinecone API route.  The JavaScript
`while` loop of `getExecutionOrder` has no termination guarantee on cyclic
graphs, so its embedding `traverse` carries an explicit fuel argument;
`none` from `traverse` marks fuel exhaustion (the loop not having
terminated within the bound), and all theorems below either hypothesise a
terminating walk or quantify over sufficient fuel.
-/

namespace AgentBuilder

/-- The `data` payload of a canvas node: display label, the node type
string (one of "Start", "End", "Input", "LLM", ..., keyed exactly as in
the source), and the per-node parameter map, embedded as an association
list of string keys to string values. -/
structure NodeData where
  label : String
  nodeType : String
  parameters : List (String × String)
deriving Repr, DecidableEq

/-- A canvas node: `id` and `data`, as read by the execution engine.
Position and visual attributes are omitted (never read by execution). -/
structure FlowNode where
  id : String
  data : NodeData
deriving Repr, DecidableEq

/-- An edge of the graph: `source` and `target` node ids.  Marker and
style attributes attached by the editor are omitted (never read by
execution). -/
structure FlowEdge where
  source : String
  target : String
deriving Repr, DecidableEq

/-- Model of the JavaScript `Map.set` as used on the adjacency map: a
later `set` for the same key shadows an earlier one.  Since the adjacency
map is only ever read back through `get`, prepending the new binding and
reading the first match is an observationally faithful model. -/
def mapSet (m : List (String × String)) (k v : String) : List (String × String) :=
  (k, v) :: m

/-- Model of the JavaScript `Map.get`: the binding for `k`, if any. -/
def mapGet (m : List (String × String)) (k : String) : Option String :=
  (m.find? (fun p => p.1 == k)).map (fun p => p.2)

/-- `edges.forEach((edge) => adjacencyMap.set(edge.source, edge.target))`
from `getExecutionOrder`: fold the edge array into the source-to-target
map, later edges overwriting earlier ones for the same source. -/
def buildAdjacency (edges : List FlowEdge) : List (String × String) :=
  edges.foldl (fun m e => mapSet m e.source e.target) []

/-- The `while (currentNodeId)` walk of `getExecutionOrder`, with explicit
fuel.  Returns `none` when the fuel is exhausted before the loop exits
(the JavaScript loop would still be running); otherwise `some` of the
nodes pushed onto `executionOrder`: look up the current node by id (break
on failure), push it, stop after pushing a node of type "End", otherwise
continue at the adjacency-map successor (the loop exits when `get`
returns `undefined`). -/
def traverse (nodes : List FlowNode) (edges : List FlowEdge) :
    Nat → Option String → Option (List FlowNode)
  | 0, _ => none
  | _ + 1, none => some []
  | fuel + 1, some cid =>
    match nodes.find? (fun n => n.id == cid) with
    | none => some []
    | some cur =>
      if cur.data.nodeType == "End" then some [cur]
      else (traverse nodes edges fuel (mapGet (buildAdjacency edges) cid)).map
        (fun rest => cur :: rest)

/-- `getExecutionOrder` from the AgentBuilder component: find the first
node of type "Start" (`null` if none), find a node of type "End" (`null`
if none), walk the adjacency map from the Start node, and return `null`
unless the last node reached has type "End". -/
def getExecutionOrder (nodes : List FlowNode) (edges : List FlowEdge) (fuel : Nat) :
    Option (List FlowNode) :=
  match nodes.find? (fun n => n.data.nodeType == "Start") with
  | none => none
  | some startNode =>
    match nodes.find? (fun n => n.data.nodeType == "End") with
    | none => none
    | some _ =>
      match traverse nodes edges fuel (some startNode.id) with
      | none => none
      | some executionOrder =>
        match executionOrder.getLast? with
        | none => none
        | some lastNode =>
          if lastNode.data.nodeType == "End" then some executionOrder else none

/-- One entry of the execution log panel (`logMessages`): the node id, the
node's label at execution time, and the output text.  The timestamp is
omitted (wall-clock time, never inspected by the logic). -/
structure LogEntry where
  nodeId : String
  nodeName : String
  output : String
deriving Repr, DecidableEq

/-- Outcome of one remote call made by a service node's executor, as seen
by `runFlow`: either a formatted success output (the response data already
rendered to the text appended to the log) or an error message (the text
after "Error: " in the appended entry). -/
inductive ExecOutcome where
  | ok (output : String)
  | err (msg : String)
deriving Repr, DecidableEq

/-- The node types for which `runFlow` has an executor branch performing a
remote call: LLM, Web Scraping, Embedding Generator, Similarity Search. -/
def isServiceType (t : String) : Bool :=
  t == "LLM" || t == "Web Scraping" || t == "Embedding Generator" || t == "Similarity Search"

/-- The node types for which `runFlow` appends a log entry: the Start and
End markers plus the four service types.  All other types (Input, Tool,
Memory, Output, Structured Output, Text Note) match no branch of the loop
body and produce no entry. -/
def producesLog (t : String) : Bool :=
  t == "Start" || t == "End" || isServiceType t

/-- Text of the Start node's pass-through marker entry. -/
def startMarkerText : String := "▶️ Starting flow execution..."

/-- Text of the End node's pass-through marker entry. -/
def endMarkerText : String := "⏹️ Flow execution completed successfully"

/-- Text of the synthetic diagnostic entry emitted when validation
fails. -/
def validationErrorText : String :=
  "❌ Error: Flow validation failed. Make sure you have:\n1. A Start node\n2. An End node\n3. All nodes connected in a path from Start to End"

/-- The synthetic diagnostic entry emitted when `getExecutionOrder`
returns `null`, attributed to the system. -/
def validationErrorEntry : LogEntry :=
  ⟨"system", "System", validationErrorText⟩

/-- Text of the "flow execution started with N nodes" entry. -/
def flowStartedText (n : Nat) : String :=
  "▶️ Flow execution started with " ++ toString n ++ " nodes"

/-- What the `for (const node of executionOrder)` loop of `runFlow`
produced: the log entries appended by the loop, the ids of the nodes for
which a remote call was issued (in call order), and whether the loop ran
to completion (false when a service node failed and the early `return`
fired). -/
structure LoopResult where
  entries : List LogEntry
  calls : List String
  completed : Bool
deriving Repr, DecidableEq

/-- The body of `runFlow`'s execution loop.  `oracle i` is the settled
outcome of the remote call made for the node at position `i` of the
execution order (each branch awaits one `fetch`; the environment decides
success or failure).  Start and End nodes append their marker entry and
continue; service nodes issue the call and either append the formatted
output and continue, or append the "Error: ..." entry and stop the whole
run; every other node type matches no branch and is skipped silently. -/
def runNodes (oracle : Nat → ExecOutcome) : List FlowNode → Nat → LoopResult
  | [], _ => ⟨[], [], true⟩
  | node :: rest, i =>
    if node.data.nodeType == "Start" then
      let r := runNodes oracle rest (i + 1)
      ⟨⟨node.id, node.data.label, startMarkerText⟩ :: r.entries, r.calls, r.completed⟩
    else if node.data.nodeType == "End" then
      let r := runNodes oracle rest (i + 1)
      ⟨⟨node.id, node.data.label, endMarkerText⟩ :: r.entries, r.calls, r.completed⟩
    else if isServiceType node.data.nodeType then
      match oracle i with
      | ExecOutcome.ok out =>
        let r := runNodes oracle rest (i + 1)
        ⟨⟨node.id, node.data.label, out⟩ :: r.entries, node.id :: r.calls, r.completed⟩
      | ExecOutcome.err msg =>
        ⟨[⟨node.id, node.data.label, "Error: " ++ msg⟩], [node.id], false⟩
    else
      runNodes oracle rest (i + 1)

/-- The observable outcome of one `runFlow` invocation: the final log (the
run starts by clearing it), the remote calls issued, whether the run
entered the Running state (emitted the "flow started" entry and began the
loop), and whether the loop completed without a failing node. -/
structure RunResult where
  log : List LogEntry
  calls : List String
  entered : Bool
  completed : Bool
deriving Repr, DecidableEq

/-- `runFlow` from the AgentBuilder component: clear the log, resolve the
execution order, and on `null` emit the single validation diagnostic and
stop; otherwise emit the "flow started with N nodes" entry and run the
loop. -/
def runFlow (nodes : List FlowNode) (edges : List FlowEdge) (fuel : Nat)
    (oracle : Nat → ExecOutcome) : RunResult :=
  match getExecutionOrder nodes edges fuel with
  | none => ⟨[validationErrorEntry], [], false, false⟩
  | some executionOrder =>
    let r := runNodes oracle executionOrder 0
    ⟨⟨"system", "System", flowStartedText executionOrder.length⟩ :: r.entries,
      r.calls, true, r.completed⟩

/-- `onConnect` from the AgentBuilder component: drop every existing edge
whose source is the new connection's source, then add the new edge.
Modelled from the spec: the library function `addEdge` (external to this
repository) appends the new connection to the edge array; the marker and
style attributes it attaches are omitted here. -/
def onConnect (params : FlowEdge) (eds : List FlowEdge) : List FlowEdge :=
  (eds.filter (fun e => e.source != params.source)) ++ [params]

/-- The at-most-one-outgoing-edge invariant maintained by the editing
surface: for every source id, at most one edge leaves it. -/
def atMostOneOutgoing (eds : List FlowEdge) : Prop :=
  ∀ s : String, (eds.filter (fun e => e.source == s)).length ≤ 1

/-- A JavaScript number as produced by `parseFloat` and `parseInt` on the
inputs relevant here: either `NaN` or a (rational) numeric value. -/
inductive JsNum where
  | nan
  | num (q : Rat)
deriving Repr, DecidableEq

/-- Value of a list of decimal digit characters, most significant
first. -/
def digitsToNat (ds : List Char) : Nat :=
  ds.foldl (fun a c => a * 10 + (c.toNat - 48)) 0

/-- Strip one optional leading sign character, returning whether the
number is negated together with the remaining characters. -/
def stripSign : List Char → Bool × List Char
  | '-' :: rest => (true, rest)
  | '+' :: rest => (false, rest)
  | cs => (false, cs)

/-- Model of the JavaScript builtin `parseFloat` on the inputs occurring
here: skip leading whitespace, read an optional sign, then the longest
prefix of decimal digits with an optional fractional part; `NaN` when no
digit is read.  (Exponent suffixes and Infinity are not modelled; no
parameter flow in this code produces them.) -/
def parseFloat (s : String) : JsNum :=
  let cs := s.data.dropWhile (fun c => c == ' ' || c == '\t' || c == '\n')
  let sr := stripSign cs
  let intDigits := sr.2.takeWhile Char.isDigit
  let afterInt := sr.2.dropWhile Char.isDigit
  let fracDigits :=
    match afterInt with
    | '.' :: rest => rest.takeWhile Char.isDigit
    | _ => []
  if intDigits.isEmpty && fracDigits.isEmpty then JsNum.nan
  else
    let mag : Rat :=
      (digitsToNat intDigits : Rat) + (digitsToNat fracDigits : Rat) / ((10 : Rat) ^ fracDigits.length)
    JsNum.num (if sr.1 then -mag else mag)

/-- Model of the JavaScript builtin `parseInt` (default radix) on the
inputs occurring here: skip leading whitespace, read an optional sign and
the longest prefix of decimal digits; `NaN` when no digit is read. -/
def parseInt (s : String) : JsNum :=
  let cs := s.data.dropWhile (fun c => c == ' ' || c == '\t' || c == '\n')
  let sr := stripSign cs
  let ds := sr.2.takeWhile Char.isDigit
  if ds.isEmpty then JsNum.nan
  else JsNum.num (if sr.1 then -(digitsToNat ds : Rat) else (digitsToNat ds : Rat))

/-- `temperature ? parseFloat(temperature) : 0.7` from the gemini API
route; the string is truthy exactly when non-empty. -/
def parsedTemperature (temperature : String) : JsNum :=
  if temperature != "" then parseFloat temperature else JsNum.num (7 / 10)

/-- `maxOutputTokens ? parseInt(maxOutputTokens) : 1024` from the gemini
API route. -/
def parsedMaxOutputTokens (maxOutputTokens : String) : JsNum :=
  if maxOutputTokens != "" then parseInt maxOutputTokens else JsNum.num 1024

/-- `topK ? parseInt(topK) : 40` from the gemini API route. -/
def parsedTopK (topK : String) : JsNum :=
  if topK != "" then parseInt topK else JsNum.num 40

/-- `const topKResults = parseInt(topK) || 5` from the pinecone API
route: `NaN` and `0` are falsy, so both fall back to 5. -/
def topKResults (topK : String) : Rat :=
  match parseInt topK with
  | JsNum.nan => 5
  | JsNum.num q => if q = 0 then 5 else q

/-- The client-side field defaulting `params?.x || "dflt"` used by
`runFlow` when building a request body: the default string is substituted
when the parameter map lacks the key or holds the empty string. -/
def paramOr (params : List (String × String)) (key dflt : String) : String :=
  match params.find? (fun p => p.1 == key) with
  | none => dflt
  | some p => if p.2 == "" then dflt else p.2

/-- True when the parameter is blank: absent from the map or the empty
string. -/
def blankParam (params : List (String × String)) (key : String) : Bool :=
  match params.find? (fun p => p.1 == key) with
  | none => true
  | some p => p.2 == ""

/-- The temperature an LLM node execution reaches the model with: the
controller substitutes "0.7" for a blank parameter, the route parses the
string. -/
def llmEffectiveTemperature (params : List (String × String)) : JsNum :=
  parsedTemperature (paramOr params "temperature" "0.7")

/-- The max-output-tokens value an LLM node execution reaches the model
with. -/
def llmEffectiveMaxOutputTokens (params : List (String × String)) : JsNum :=
  parsedMaxOutputTokens (paramOr params "maxOutputTokens" "1024")

/-- The topK value an LLM node execution reaches the model with. -/
def llmEffectiveTopK (params : List (String × String)) : JsNum :=
  parsedTopK (paramOr params "topK" "40")

/-- The topK value a Similarity Search node execution queries the vector
store with: the controller substitutes "5" for a blank parameter, the
route parses with `parseInt(topK) || 5`. -/
def searchEffectiveTopK (params : List (String × String)) : Rat :=
  topKResults (paramOr params "topK" "5")

/-- The component state `getExecutionOrder` closes over: the node and edge
collections it reads, together with the other pieces of state it could
have touched but does not (the log and the id counter). -/
structure BuilderState where
  nodes : List FlowNode
  edges : List FlowEdge
  logMessages : List LogEntry
  nodeIdCounter : Nat
deriving Repr, DecidableEq

/-- Invoking the resolver against the component state: it returns the
execution order and leaves the state untouched (the source function calls
no state setter). -/
def resolveFromState (s : BuilderState) (fuel : Nat) :
    Option (List FlowNode) × BuilderState :=
  (getExecutionOrder s.nodes s.edges fuel, s)

/-- A terminating walk of the adjacency map that ends by reaching a node
of type "End": `WalkToEnd nodes edges cid vs` states that starting the
`getExecutionOrder` loop at id `cid` pushes exactly the nodes `vs` and
stops at an End node. -/
inductive WalkToEnd (nodes : List FlowNode) (edges : List FlowEdge) :
    String → List FlowNode → Prop
  | endHere (cid : String) (n : FlowNode) :
      nodes.find? (fun m => m.id == cid) = some n →
      n.data.nodeType = "End" →
      WalkToEnd nodes edges cid [n]
  | step (cid : String) (n : FlowNode) (next : String) (rest : List FlowNode) :
      nodes.find? (fun m => m.id == cid) = some n →
      n.data.nodeType ≠ "End" →
      mapGet (buildAdjacency edges) cid = some next →
      WalkToEnd nodes edges next rest →
      WalkToEnd nodes edges cid (n :: rest)

/-- A walk of the adjacency map that terminates for any reason: reaching
an End node, a dead end (no outgoing mapping), or an id not present in the
node list.  `WalkTerm nodes edges cid vs` states that the loop started at
`cid` exits after pushing exactly the nodes `vs`. -/
inductive WalkTerm (nodes : List FlowNode) (edges : List FlowEdge) :
    String → List FlowNode → Prop
  | notFound (cid : String) :
      nodes.find? (fun m => m.id == cid) = none →
      WalkTerm nodes edges cid []
  | endHere (cid : String) (n : FlowNode) :
      nodes.find? (fun m => m.id == cid) = some n →
      n.data.nodeType = "End" →
      WalkTerm nodes edges cid [n]
  | deadEnd (cid : String) (n : FlowNode) :
      nodes.find? (fun m => m.id == cid) = some n →
      n.data.nodeType ≠ "End" →
      mapGet (buildAdjacency edges) cid = none →
      WalkTerm nodes edges cid [n]
  | step (cid : String) (n : FlowNode) (next : String) (rest : List FlowNode) :
      nodes.find? (fun m => m.id == cid) = some n →
      n.data.nodeType ≠ "End" →
      mapGet (buildAdjacency edges) cid = some next →
      WalkTerm nodes edges next rest →
      WalkTerm nodes edges cid (n :: rest)

/-- Graph with two Start nodes and a wired path from the first of them. -/
def c1CexNodes : List FlowNode :=
  [⟨"a", ⟨"A", "Start", []⟩⟩, ⟨"b", ⟨"B", "Start", []⟩⟩, ⟨"c", ⟨"C", "End", []⟩⟩]

/-- Edges of the two-Start graph. -/
def c1CexEdges : List FlowEdge := [⟨"a", "c"⟩]

/-- Graph with no Start node. -/
def c1WitNodes : List FlowNode := [⟨"x", ⟨"Only", "LLM", []⟩⟩, ⟨"y", ⟨"Exit", "End", []⟩⟩]

/-- Linear graph Start → Input → End. -/
def c2Nodes : List FlowNode :=
  [⟨"n0", ⟨"Start", "Start", []⟩⟩, ⟨"n1", ⟨"My Input", "Input", []⟩⟩, ⟨"n3", ⟨"End", "End", []⟩⟩]

/-- Edges of the Start → Input → End graph. -/
def c2Edges : List FlowEdge := [⟨"n0", "n1"⟩, ⟨"n1", "n3"⟩]

/-- Linear graph Start → LLM → End, plus a disconnected Tool node. -/
def c3Nodes : List FlowNode :=
  [⟨"s", ⟨"Start", "Start", []⟩⟩, ⟨"l", ⟨"My LLM", "LLM", []⟩⟩, ⟨"e", ⟨"End", "End", []⟩⟩,
    ⟨"d", ⟨"Disconnected", "Tool", []⟩⟩]

/-- Edges of the Start → LLM → End graph. -/
def c3Edges : List FlowEdge := [⟨"s", "l"⟩, ⟨"l", "e"⟩]

/-- Linear graph Start → Input → LLM → End. -/
def c4Nodes : List FlowNode :=
  [⟨"m0", ⟨"Start", "Start", []⟩⟩, ⟨"m1", ⟨"Input", "Input", []⟩⟩,
    ⟨"m2", ⟨"LLM", "LLM", []⟩⟩, ⟨"m3", ⟨"End", "End", []⟩⟩]

/-- Edges of the Start → Input → LLM → End graph. -/
def c4Edges : List FlowEdge := [⟨"m0", "m1"⟩, ⟨"m1", "m2"⟩, ⟨"m2", "m3"⟩]

/-- Environment in which the call for the node at position 2 fails and
every other call succeeds. -/
def c4Oracle : Nat → ExecOutcome :=
  fun i => if i == 2 then ExecOutcome.err "boom" else ExecOutcome.ok "fine"

/-- Graph whose walk from Start dead-ends at an LLM node; an End node
exists but is unreachable. -/
def c6Nodes : List FlowNode :=
  [⟨"n0", ⟨"Start", "Start", []⟩⟩, ⟨"n2", ⟨"My LLM", "LLM", []⟩⟩, ⟨"n3", ⟨"End", "End", []⟩⟩]

/-- The single edge of the dead-end graph. -/
def c6Edges : List FlowEdge := [⟨"n0", "n2"⟩]

/-- A component state with a resolvable graph, a non-empty log and a
non-zero id counter. -/
def c8State : BuilderState :=
  ⟨[⟨"s", ⟨"Start", "Start", []⟩⟩, ⟨"e", ⟨"End", "End", []⟩⟩], [⟨"s", "e"⟩],
    [⟨"system", "System", "old entry"⟩], 7⟩

/-- An edge set satisfying the at-most-one-outgoing invariant. -/
def c9Eds : List FlowEdge := [⟨"a", "b"⟩, ⟨"c", "a"⟩]

/-- A new connection whose source already has an outgoing edge. -/
def c9New : FlowEdge := ⟨"a", "d"⟩

/-- Graph in which the Start node has two outgoing edges in the array:
an earlier one to node "p" and a later one to node "q". -/
def c10Nodes : List FlowNode :=
  [⟨"s", ⟨"Start", "Start", []⟩⟩, ⟨"p", ⟨"First", "LLM", []⟩⟩,
    ⟨"q", ⟨"Second", "LLM", []⟩⟩, ⟨"e", ⟨"End", "End", []⟩⟩]

/-- Edge array violating the at-most-one-outgoing invariant: two edges
leave "s"; the later one points at "q". -/
def c10Edges : List FlowEdge := [⟨"s", "p"⟩, ⟨"p", "e"⟩, ⟨"s", "q"⟩, ⟨"q", "e"⟩]

section Lemmas

variable {nodes : List FlowNode} {edges : List FlowEdge}

/-- A `WalkToEnd` walk is what `traverse` computes, for any fuel larger
than the walk's length. -/
theorem walkToEnd_traverse {cid : String} {vs : List FlowNode}
    (h : WalkToEnd nodes edges cid vs) :
    ∀ fuel : Nat, vs.length < fuel → traverse nodes edges fuel (some cid) = some vs := by
  induction h with
  | endHere cid n hfind hend =>
    intro fuel hf
    match fuel, hf with
    | f + 1, _ =>
      simp [traverse, hfind, hend]
  | step cid n next rest hfind hne hadj _ ih =>
    intro fuel hf
    match fuel, hf with
    | f + 1, hf =>
      have hrest : rest.length < f := by simpa using Nat.lt_of_succ_lt_succ hf
      simp [traverse, hfind, hne, hadj, ih f hrest]

/-- The last node of a `WalkToEnd` walk is an End node belonging to the
node list. -/
theorem walkToEnd_getLast {cid : String} {vs : List FlowNode}
    (h : WalkToEnd nodes edges cid vs) :
    ∃ e, vs.getLast? = some e ∧ e.data.nodeType = "End" ∧ e ∈ nodes := by
  induction h with
  | endHere cid n hfind hend =>
    exact ⟨n, rfl, hend, List.mem_of_find?_eq_some hfind⟩
  | step cid n next rest hfind hne hadj hrest ih =>
    obtain ⟨e, hlast, hend, hmem⟩ := ih
    refine ⟨e, ?_, hend, hmem⟩
    cases rest with
    | nil => cases hlast
    | cons r rs => simpa [List.getLast?_cons_cons] using hlast

/-- A `WalkTerm` walk is what `traverse` computes, for any fuel larger
than the walk's length. -/
theorem walkTerm_traverse {cid : String} {vs : List FlowNode}
    (h : WalkTerm nodes edges cid vs) :
    ∀ fuel : Nat, vs.length < fuel → traverse nodes edges fuel (some cid) = some vs := by
  induction h with
  | notFound cid hfind =>
    intro fuel hf
    match fuel, hf with
    | f + 1, _ => simp [traverse, hfind]
  | endHere cid n hfind hend =>
    intro fuel hf
    match fuel, hf with
    | f + 1, _ => simp [traverse, hfind, hend]
  | deadEnd cid n hfind hne hadj =>
    intro fuel hf
    match fuel, hf with
    | f + 1, hf =>
      have hpos : 0 < f := by simpa using Nat.lt_of_succ_lt_succ hf
      match f, hpos with
      | g + 1, _ => simp [traverse, hfind, hne, hadj]
  | step cid n next rest hfind hne hadj _ ih =>
    intro fuel hf
    match fuel, hf with
    | f + 1, hf =>
      have hrest : rest.length < f := by simpa using Nat.lt_of_succ_lt_succ hf
      simp [traverse, hfind, hne, hadj, ih f hrest]

/-- Every node visited by a `WalkTerm` walk belongs to the node list. -/
theorem walkTerm_subset {cid : String} {vs : List FlowNode}
    (h : WalkTerm nodes edges cid vs) : ∀ n ∈ vs, n ∈ nodes := by
  induction h with
  | notFound cid hfind => simp
  | endHere cid n hfind hend =>
    simpa using List.mem_of_find?_eq_some hfind
  | deadEnd cid n hfind hne hadj =>
    simpa using List.mem_of_find?_eq_some hfind
  | step cid n next rest hfind hne hadj hrest ih =>
    intro m hm
    rcases List.mem_cons.mp hm with h1 | h2
    · exact h1 ▸ List.mem_of_find?_eq_some hfind
    · exact ih m h2

/-- Reading a key from the map after a `set`: the new binding shadows any
earlier one for the same key. -/
theorem mapGet_mapSet (m0 : List (String × String)) (k v s : String) :
    mapGet (mapSet m0 k v) s = if k == s then some v else mapGet m0 s := by
  cases h : k == s <;> simp [mapGet, mapSet, List.find?_cons, h]

/-- Folding an edge list into the adjacency map and reading a source id:
the last edge with that source wins, falling back to the accumulator. -/
theorem mapGet_foldl_mapSet (el : List FlowEdge) (m0 : List (String × String)) (s : String) :
    mapGet (el.foldl (fun m e => mapSet m e.source e.target) m0) s =
      match (el.filter (fun e => e.source == s)).getLast? with
      | some e => some e.target
      | none => mapGet m0 s := by
  induction el generalizing m0 with
  | nil => rfl
  | cons e rest ih =>
    rw [List.foldl_cons, ih]
    cases h : e.source == s with
    | true =>
      rw [List.filter_cons_of_pos (by simpa using h)]
      cases hf : rest.filter (fun x => x.source == s) with
      | nil => simp [hf, mapGet_mapSet, h]
      | cons b bs =>
        rw [List.getLast?_cons_cons]
        cases hlast : (b :: bs).getLast? with
        | none => simp [List.getLast?_eq_none_iff] at hlast
        | some e' => simp [hlast]
    | false =>
      rw [List.filter_cons_of_neg (by simp [h])]
      cases hlast : (rest.filter fun x => x.source == s).getLast? with
      | some e' => simp [hlast]
      | none => simp [hlast, mapGet_mapSet, h]

/-- The adjacency map of `getExecutionOrder` resolves a source id to the
target of the last edge in the array with that source. -/
theorem mapGet_buildAdjacency (el : List FlowEdge) (s : String) :
    mapGet (buildAdjacency el) s =
      ((el.filter (fun e => e.source == s)).getLast?).map FlowEdge.target := by
  rw [buildAdjacency, mapGet_foldl_mapSet]
  cases hlast : (el.filter (fun e => e.source == s)).getLast? with
  | none => simp [mapGet]
  | some e => simp

/-- A service node type is not "Start". -/
theorem isServiceType_ne_start {t : String} (h : isServiceType t = true) :
    (t == "Start") = false := by
  cases hs : t == "Start" with
  | false => rfl
  | true =>
    have := eq_of_beq hs
    subst this
    simp [isServiceType] at h

/-- A service node type is not "End". -/
theorem isServiceType_ne_end {t : String} (h : isServiceType t = true) :
    (t == "End") = false := by
  cases hs : t == "End" with
  | false => rfl
  | true =>
    have := eq_of_beq hs
    subst this
    simp [isServiceType] at h

/-- Auxiliary: `getLast?` of a cons whose tail has a known last element. -/
theorem getLast?_cons_of_some {α : Type} {l : List α} {a x : α} (h : l.getLast? = some x) :
    (a :: l).getLast? = some x := by
  cases l with
  | nil => cases h
  | cons b bs => rwa [List.getLast?_cons_cons]

/-- When every remote call succeeds, the execution loop completes,
appends exactly one entry per log-producing node (Start, End and the four
service types) and calls exactly the service nodes in order. -/
theorem runNodes_ok (oracle : Nat → ExecOutcome) (l : List FlowNode) :
    ∀ i : Nat, (∀ j, ∃ out, oracle j = ExecOutcome.ok out) →
      (runNodes oracle l i).completed = true ∧
      (runNodes oracle l i).entries.length =
        (l.filter (fun n => producesLog n.data.nodeType)).length ∧
      (runNodes oracle l i).calls =
        (l.filter (fun n => isServiceType n.data.nodeType)).map FlowNode.id := by
  induction l with
  | nil => intro i h; simp [runNodes]
  | cons node rest ih =>
    intro i h
    obtain ⟨hc, he, hk⟩ := ih (i + 1) h
    cases h1 : node.data.nodeType == "Start" with
    | true =>
      have ht := eq_of_beq h1
      simp [runNodes, h1, ht, producesLog, isServiceType, hc, he, hk]
    | false =>
      cases h2 : node.data.nodeType == "End" with
      | true =>
        have ht := eq_of_beq h2
        simp [runNodes, h1, h2, ht, producesLog, isServiceType, hc, he, hk]
      | false =>
        cases h3 : isServiceType node.data.nodeType with
        | true =>
          obtain ⟨out, hout⟩ := h i
          simp [runNodes, h1, h2, h3, hout, producesLog, hc, he, hk]
        | false =>
          simp [runNodes, h1, h2, h3, producesLog, hc, he, hk]

/-- When the calls for the nodes before `failNode` succeed and the call
for `failNode` fails, the loop stops at `failNode`: it is the last entry,
nothing after it is called, and the loop reports failure. -/
theorem runNodes_firstFailure (oracle : Nat → ExecOutcome) (failNode : FlowNode)
    (post : List FlowNode) (msg : String) (hsvc : isServiceType failNode.data.nodeType = true) :
    ∀ (pre : List FlowNode) (i : Nat),
      (∀ j, j < pre.length → ∃ out, oracle (i + j) = ExecOutcome.ok out) →
      oracle (i + pre.length) = ExecOutcome.err msg →
      (runNodes oracle (pre ++ failNode :: post) i).completed = false ∧
      (runNodes oracle (pre ++ failNode :: post) i).entries.length =
        (pre.filter (fun n => producesLog n.data.nodeType)).length + 1 ∧
      (runNodes oracle (pre ++ failNode :: post) i).calls =
        ((pre.filter (fun n => isServiceType n.data.nodeType)).map FlowNode.id) ++ [failNode.id] ∧
      (runNodes oracle (pre ++ failNode :: post) i).entries.getLast? =
        some ⟨failNode.id, failNode.data.label, "Error: " ++ msg⟩ := by
  intro pre
  induction pre with
  | nil =>
    intro i _ hfail
    simp only [List.length_nil, Nat.add_zero] at hfail
    simp [runNodes, isServiceType_ne_start hsvc, isServiceType_ne_end hsvc, hsvc, hfail]
  | cons node rest ih =>
    intro i hok hfail
    have hok1 : ∀ j, j < rest.length → ∃ out, oracle (i + 1 + j) = ExecOutcome.ok out := by
      intro j hj
      obtain ⟨out, ho⟩ := hok (j + 1) (by simpa using Nat.succ_lt_succ hj)
      exact ⟨out, by rw [show i + 1 + j = i + (j + 1) by omega]; exact ho⟩
    have hfail1 : oracle (i + 1 + rest.length) = ExecOutcome.err msg := by
      rw [show i + 1 + rest.length = i + (rest.length + 1) by omega]
      simpa using hfail
    obtain ⟨hc, he, hk, hl⟩ := ih (i + 1) hok1 hfail1
    cases h1 : node.data.nodeType == "Start" with
    | true =>
      have ht := eq_of_beq h1
      refine ⟨by simp [runNodes, h1, hc], ?_, ?_, ?_⟩
      · simp [runNodes, h1, ht, producesLog, isServiceType, he]
      · simp [runNodes, h1, ht, isServiceType, hk]
      · simp only [List.cons_append, runNodes, h1, if_true]
        exact getLast?_cons_of_some hl
    | false =>
      cases h2 : node.data.nodeType == "End" with
      | true =>
        have ht := eq_of_beq h2
        refine ⟨by simp [runNodes, h1, h2, hc], ?_, ?_, ?_⟩
        · simp [runNodes, h1, h2, ht, producesLog, isServiceType, he]
        · simp [runNodes, h1, h2, ht, isServiceType, hk]
        · simp only [List.cons_append, runNodes, h1, h2]
          simp only [Bool.false_eq_true, if_false, if_true]
          exact getLast?_cons_of_some hl
      | false =>
        cases h3 : isServiceType node.data.nodeType with
        | true =>
          obtain ⟨out, hout⟩ := by
            have := hok 0 (by simp)
            rwa [Nat.add_zero] at this
          refine ⟨by simp [runNodes, h1, h2, h3, hout, hc], ?_, ?_, ?_⟩
          · simp [runNodes, h1, h2, h3, hout, producesLog, he]
          · simp [runNodes, h1, h2, h3, hout, hk]
          · simp only [List.cons_append, runNodes, h1, h2, h3, hout]
            simp only [Bool.false_eq_true, if_false, if_true]
            exact getLast?_cons_of_some hl
        | false =>
          refine ⟨by simp [runNodes, h1, h2, h3, hc], ?_, ?_, ?_⟩
          · simp [runNodes, h1, h2, h3, producesLog, he]
          · simp [runNodes, h1, h2, h3, hk]
          · simp only [List.cons_append, runNodes, h1, h2, h3]
            simp only [Bool.false_eq_true, if_false]
            exact hl

/-- The default temperature string parses to 0.7. -/
theorem parsedTemperature_default : parsedTemperature "0.7" = JsNum.num (7 / 10) := by
  have h : parseFloat "0.7" =
      JsNum.num ((digitsToNat ['0'] : Rat) +
        (digitsToNat ['7'] : Rat) / ((10 : Rat) ^ (['7'] : List Char).length)) := rfl
  have e1 : digitsToNat ['0'] = 0 := by decide
  have e2 : digitsToNat ['7'] = 7 := by decide
  rw [parsedTemperature, if_pos (by decide), h, e1, e2]
  norm_num

/-- The default max-output-tokens string parses to 1024. -/
theorem parsedMaxOutputTokens_default : parsedMaxOutputTokens "1024" = JsNum.num 1024 := by
  have h : parseInt "1024" = JsNum.num ((digitsToNat ['1', '0', '2', '4'] : Nat) : Rat) := rfl
  have e1 : digitsToNat ['1', '0', '2', '4'] = 1024 := by decide
  rw [parsedMaxOutputTokens, if_pos (by decide), h, e1]
  norm_num

/-- The default topK string parses to 40. -/
theorem parsedTopK_default : parsedTopK "40" = JsNum.num 40 := by
  have h : parseInt "40" = JsNum.num ((digitsToNat ['4', '0'] : Nat) : Rat) := rfl
  have e1 : digitsToNat ['4', '0'] = 40 := by decide
  rw [parsedTopK, if_pos (by decide), h, e1]
  norm_num

/-- The default similarity-search topK string parses to 5. -/
theorem topKResults_default : topKResults "5" = 5 := by
  have h : parseInt "5" = JsNum.num ((digitsToNat ['5'] : Nat) : Rat) := rfl
  have e1 : digitsToNat ['5'] = 5 := by decide
  rw [e1] at h
  simp only [topKResults, h]
  norm_num

/-- A blank parameter (absent or empty) makes the client-side defaulting
substitute the default string. -/
theorem paramOr_of_blank (params : List (String × String)) (key dflt : String)
    (h : blankParam params key = true) : paramOr params key dflt = dflt := by
  cases hf : params.find? (fun p => p.1 == key) with
  | none => simp [paramOr, hf]
  | some p =>
    simp [blankParam, hf] at h
    simp [paramOr, hf, h]

/-- Filtering the post-`onConnect` edge set for the new connection's
source yields the new edge alone: the prior outgoing edges of that source
were removed before the new edge was added. -/
theorem onConnect_filter_source (params : FlowEdge) (eds : List FlowEdge) :
    (onConnect params eds).filter (fun e => e.source == params.source) = [params] := by
  rw [onConnect, List.filter_append]
  have h0 : (eds.filter (fun e => e.source != params.source)).filter
      (fun e => e.source == params.source) = [] := by
    rw [List.filter_eq_nil_iff]
    intro a ha
    have hmem := List.of_mem_filter ha
    simp only [bne_iff_ne, ne_eq] at hmem
    simp [hmem]
  rw [h0]
  simp

end Lemmas

/-- Claim C1 counterexample: a graph with two Start nodes (and a wired
path from the first) is not rejected by `getExecutionOrder` — it resolves
to the walk from the first Start node, refuting the claim that more than
one Start node makes `resolve` return null. -/
theorem c1_counterexample :
    ((c1CexNodes.filter (fun n => n.data.nodeType == "Start")).length = 2) ∧
    getExecutionOrder c1CexNodes c1CexEdges 4 =
      some [⟨"a", ⟨"A", "Start", []⟩⟩, ⟨"c", ⟨"C", "End", []⟩⟩] ∧
    getExecutionOrder c1CexNodes c1CexEdges 4 ≠ none := by
  refine ⟨by decide, by decide, by decide⟩

/-- Claim C1 (amended): for every graph missing a Start node or missing
an End node, `getExecutionOrder` returns null and the run controller
emits exactly one diagnostic log entry.  (Graphs with more than one Start
or End node are not rejected — the first Start found starts the walk and
any End node terminates it.) -/
theorem c1_missing_start_or_end {nodes : List FlowNode} {edges : List FlowEdge} {fuel : Nat}
    (oracle : Nat → ExecOutcome)
    (h : nodes.find? (fun n => n.data.nodeType == "Start") = none ∨
         nodes.find? (fun n => n.data.nodeType == "End") = none) :
    getExecutionOrder nodes edges fuel = none ∧
    (runFlow nodes edges fuel oracle).log = [validationErrorEntry] := by
  have hres : getExecutionOrder nodes edges fuel = none := by
    rcases h with h | h
    · simp [getExecutionOrder, h]
    · cases hs : nodes.find? (fun n => n.data.nodeType == "Start") with
      | none => simp [getExecutionOrder, hs]
      | some s => simp [getExecutionOrder, hs, h]
  exact ⟨hres, by simp [runFlow, hres]⟩

/-- Claim C1 witness: a graph without a Start node resolves to null and
the run log is exactly the single diagnostic entry. -/
theorem c1_witness :
    getExecutionOrder c1WitNodes [] 3 = none ∧
    (runFlow c1WitNodes [] 3 (fun _ => ExecOutcome.ok "x")).log = [validationErrorEntry] :=
  c1_missing_start_or_end (fun _ => ExecOutcome.ok "x") (Or.inl (by decide))

/-- Claim C2 counterexample: in the run over Start → Input → End every
call succeeds, yet the final log has 3 entries (start marker, Start
marker, End marker) and no entry at all for the Input node — refuting
"exactly one log entry per node of the resolved sequence including
pass-through marker entries for Input/Tool/Memory/...". -/
theorem c2_counterexample :
    getExecutionOrder c2Nodes c2Edges 5 = some c2Nodes ∧
    c2Nodes.length = 3 ∧
    (runFlow c2Nodes c2Edges 5 (fun _ => ExecOutcome.ok "out")).log.length = 3 ∧
    (runFlow c2Nodes c2Edges 5 (fun _ => ExecOutcome.ok "out")).log.length ≠ 1 + c2Nodes.length ∧
    ((runFlow c2Nodes c2Edges 5 (fun _ => ExecOutcome.ok "out")).log.filter
      (fun en => en.nodeId == "n1")).length = 0 := by
  refine ⟨by decide, by decide, by decide, by decide, by decide⟩

/-- Claim C2 (amended): for every run that enters Running and in which
every remote call succeeds, the controller completes the loop and the
final log holds the "flow started" entry plus exactly one entry per node
of a log-producing type (Start, End, LLM, Web Scraping, Embedding
Generator, Similarity Search); nodes of the other types (Input, Tool,
Memory, Output, Structured Output, Text Note) produce no entry. -/
theorem c2_log_entries {nodes : List FlowNode} {edges : List FlowEdge} {fuel : Nat}
    {oracle : Nat → ExecOutcome} {order : List FlowNode}
    (hres : getExecutionOrder nodes edges fuel = some order)
    (hok : ∀ j, ∃ out, oracle j = ExecOutcome.ok out) :
    (runFlow nodes edges fuel oracle).entered = true ∧
    (runFlow nodes edges fuel oracle).completed = true ∧
    (runFlow nodes edges fuel oracle).log.length =
      1 + (order.filter (fun n => producesLog n.data.nodeType)).length := by
  obtain ⟨hc, he, _⟩ := runNodes_ok oracle order 0 hok
  refine ⟨by simp [runFlow, hres], by simp [runFlow, hres, hc], ?_⟩
  simp [runFlow, hres, he]
  omega

/-- Claim C2 witness: the amended statement at the Start → Input → End
graph with an always-succeeding environment. -/
theorem c2_witness :
    (runFlow c2Nodes c2Edges 5 (fun _ => ExecOutcome.ok "out")).entered = true ∧
    (runFlow c2Nodes c2Edges 5 (fun _ => ExecOutcome.ok "out")).completed = true ∧
    (runFlow c2Nodes c2Edges 5 (fun _ => ExecOutcome.ok "out")).log.length =
      1 + (c2Nodes.filter (fun n => producesLog n.data.nodeType)).length :=
  c2_log_entries (by decide) (fun _ => ⟨"out", rfl⟩)

/-- Claim C3: when following the outgoing-edge map from the Start node
reaches an End node, `getExecutionOrder` returns exactly the nodes on
that walk, in traversal order; any node not on the walk (in particular
any disconnected node) never appears in the returned sequence, since the
result equals the walk itself. -/
theorem c3_path_resolve {nodes : List FlowNode} {edges : List FlowEdge} {s : FlowNode}
    {vs : List FlowNode} {fuel : Nat}
    (hstart : nodes.find? (fun n => n.data.nodeType == "Start") = some s)
    (hwalk : WalkToEnd nodes edges s.id vs)
    (hfuel : vs.length < fuel) :
    getExecutionOrder nodes edges fuel = some vs := by
  obtain ⟨e, hlast, hend, hmem⟩ := walkToEnd_getLast hwalk
  have htrav := walkToEnd_traverse hwalk fuel hfuel
  cases hE : nodes.find? (fun n => n.data.nodeType == "End") with
  | none =>
    have := List.find?_eq_none.mp hE e hmem
    simp [hend] at this
  | some e0 =>
    simp [getExecutionOrder, hstart, hE, htrav, hlast, hend]

/-- Claim C3 witness: the path Start → LLM → End is returned exactly, and
the disconnected Tool node of the graph is excluded. -/
theorem c3_witness :
    getExecutionOrder c3Nodes c3Edges 4 =
      some [⟨"s", ⟨"Start", "Start", []⟩⟩, ⟨"l", ⟨"My LLM", "LLM", []⟩⟩,
        ⟨"e", ⟨"End", "End", []⟩⟩] := by
  have hstart : c3Nodes.find? (fun n => n.data.nodeType == "Start") =
      some ⟨"s", ⟨"Start", "Start", []⟩⟩ := by decide
  refine c3_path_resolve hstart ?_ (by decide)
  exact WalkToEnd.step "s" _ "l" _ (by decide) (by decide) (by decide)
    (WalkToEnd.step "l" _ "e" _ (by decide) (by decide) (by decide)
      (WalkToEnd.endHere "e" _ (by decide) (by decide)))

/-- Claim C4 counterexample: in the run over Start → Input → LLM → End
where the LLM node (position 2 of the resolved sequence) fails, the final
log has 3 entries, not the claimed i + 2 = 4 — the Input node at position
1 produced no entry. -/
theorem c4_counterexample :
    getExecutionOrder c4Nodes c4Edges 6 =
      some ([⟨"m0", ⟨"Start", "Start", []⟩⟩, ⟨"m1", ⟨"Input", "Input", []⟩⟩] ++
        ⟨"m2", ⟨"LLM", "LLM", []⟩⟩ :: [⟨"m3", ⟨"End", "End", []⟩⟩]) ∧
    c4Oracle 2 = ExecOutcome.err "boom" ∧
    (runFlow c4Nodes c4Edges 6 c4Oracle).log.length = 3 ∧
    (runFlow c4Nodes c4Edges 6 c4Oracle).log.length ≠ 2 + 2 := by
  refine ⟨by decide, by decide, by decide, by decide⟩

/-- Claim C4 (amended): for every run in which the calls before a failing
service node succeed and that node's call fails, the run stops there: the
log is the start marker, one entry per log-producing node before the
failing one (nodes of the skipped types produce no entry), and the
failing node's error entry last; remote calls are issued exactly for the
service nodes up to and including the failing one, so no node after it is
executed. -/
theorem c4_first_failure {nodes : List FlowNode} {edges : List FlowEdge} {fuel : Nat}
    {oracle : Nat → ExecOutcome} {pre : List FlowNode} {failNode : FlowNode}
    {post : List FlowNode} {msg : String}
    (hres : getExecutionOrder nodes edges fuel = some (pre ++ failNode :: post))
    (hok : ∀ j, j < pre.length → ∃ out, oracle j = ExecOutcome.ok out)
    (hsvc : isServiceType failNode.data.nodeType = true)
    (hfail : oracle pre.length = ExecOutcome.err msg) :
    (runFlow nodes edges fuel oracle).completed = false ∧
    (runFlow nodes edges fuel oracle).log.length =
      1 + (pre.filter (fun n => producesLog n.data.nodeType)).length + 1 ∧
    (runFlow nodes edges fuel oracle).calls =
      ((pre.filter (fun n => isServiceType n.data.nodeType)).map FlowNode.id) ++ [failNode.id] ∧
    (runFlow nodes edges fuel oracle).log.getLast? =
      some ⟨failNode.id, failNode.data.label, "Error: " ++ msg⟩ := by
  have hok0 : ∀ j, j < pre.length → ∃ out, oracle (0 + j) = ExecOutcome.ok out := by
    intro j hj
    obtain ⟨out, ho⟩ := hok j hj
    exact ⟨out, by rwa [Nat.zero_add]⟩
  have hfail0 : oracle (0 + pre.length) = ExecOutcome.err msg := by rwa [Nat.zero_add]
  obtain ⟨hc, he, hk, hl⟩ := runNodes_firstFailure oracle failNode post msg hsvc pre 0 hok0 hfail0
  refine ⟨by simp [runFlow, hres, hc], ?_, by simp [runFlow, hres, hk], ?_⟩
  · simp [runFlow, hres, he]
    omega
  · simp only [runFlow, hres]
    exact getLast?_cons_of_some hl

/-- Claim C4 witness: the amended statement at the Start → Input → LLM →
End graph whose LLM call fails. -/
theorem c4_witness :
    (runFlow c4Nodes c4Edges 6 c4Oracle).completed = false ∧
    (runFlow c4Nodes c4Edges 6 c4Oracle).log.length =
      1 + (([⟨"m0", ⟨"Start", "Start", []⟩⟩, ⟨"m1", ⟨"Input", "Input", []⟩⟩] : List FlowNode).filter
        (fun n => producesLog n.data.nodeType)).length + 1 ∧
    (runFlow c4Nodes c4Edges 6 c4Oracle).calls =
      ((([⟨"m0", ⟨"Start", "Start", []⟩⟩, ⟨"m1", ⟨"Input", "Input", []⟩⟩] : List FlowNode).filter
        (fun n => isServiceType n.data.nodeType)).map FlowNode.id) ++ ["m2"] ∧
    (runFlow c4Nodes c4Edges 6 c4Oracle).log.getLast? =
      some ⟨"m2", "LLM", "Error: " ++ "boom"⟩ := by
  have hres : getExecutionOrder c4Nodes c4Edges 6 =
      some (([⟨"m0", ⟨"Start", "Start", []⟩⟩, ⟨"m1", ⟨"Input", "Input", []⟩⟩] : List FlowNode) ++
        (⟨"m2", ⟨"LLM", "LLM", []⟩⟩ : FlowNode) :: [⟨"m3", ⟨"End", "End", []⟩⟩]) := by decide
  have hok : ∀ j, j < (([⟨"m0", ⟨"Start", "Start", []⟩⟩, ⟨"m1", ⟨"Input", "Input", []⟩⟩] :
      List FlowNode)).length → ∃ out, c4Oracle j = ExecOutcome.ok out := by
    intro j hj
    have hj2 : j < 2 := by simpa using hj
    interval_cases j
    · exact ⟨"fine", rfl⟩
    · exact ⟨"fine", rfl⟩
  exact c4_first_failure hres hok (by decide) (by decide)

/-- Claim C5: for every graph that fails validation (`getExecutionOrder`
returned null), the run emits exactly one synthetic diagnostic entry
attributed to the system, performs no remote call, and never enters the
Running state. -/
theorem c5_validation_failure {nodes : List FlowNode} {edges : List FlowEdge} {fuel : Nat}
    (oracle : Nat → ExecOutcome)
    (h : getExecutionOrder nodes edges fuel = none) :
    (runFlow nodes edges fuel oracle).log = [validationErrorEntry] ∧
    validationErrorEntry.nodeId = "system" ∧
    (runFlow nodes edges fuel oracle).calls = [] ∧
    (runFlow nodes edges fuel oracle).entered = false := by
  refine ⟨?_, rfl, ?_, ?_⟩ <;> simp [runFlow, h]

/-- Claim C5 witness: the empty graph fails validation; its run performs
no call and never enters Running. -/
theorem c5_witness :
    (runFlow [] [] 3 (fun _ => ExecOutcome.ok "x")).log = [validationErrorEntry] ∧
    validationErrorEntry.nodeId = "system" ∧
    (runFlow [] [] 3 (fun _ => ExecOutcome.ok "x")).calls = [] ∧
    (runFlow [] [] 3 (fun _ => ExecOutcome.ok "x")).entered = false :=
  c5_validation_failure _ (by decide)

/-- Claim C6: when the chain of outgoing edges starting at the Start node
terminates (End reached, dead end, or unknown id) without revisiting a
node, the walk visits at most |nodes| nodes, and the resolver terminates
with a fuel-independent result: the fueled walk returns the same value
for every fuel above |nodes|, and `getExecutionOrder` is stable above
that bound. -/
theorem c6_termination {nodes : List FlowNode} {edges : List FlowEdge} {s : FlowNode}
    {vs : List FlowNode}
    (hstart : nodes.find? (fun n => n.data.nodeType == "Start") = some s)
    (hwalk : WalkTerm nodes edges s.id vs)
    (hnodup : (vs.map FlowNode.id).Nodup) :
    vs.length ≤ nodes.length ∧
    (∀ fuel, nodes.length < fuel → traverse nodes edges fuel (some s.id) = some vs) ∧
    (∀ fuel, nodes.length < fuel →
      getExecutionOrder nodes edges fuel = getExecutionOrder nodes edges (nodes.length + 1)) := by
  have hsub : vs.map FlowNode.id ⊆ nodes.map FlowNode.id := by
    intro x hx
    obtain ⟨n, hn, rfl⟩ := List.mem_map.mp hx
    exact List.mem_map_of_mem _ (walkTerm_subset hwalk n hn)
  have hlen : vs.length ≤ nodes.length := by
    have := (hnodup.subperm hsub).length_le
    simpa using this
  have htrav : ∀ fuel, nodes.length < fuel → traverse nodes edges fuel (some s.id) = some vs :=
    fun fuel hf => walkTerm_traverse hwalk fuel (Nat.lt_of_le_of_lt hlen hf)
  refine ⟨hlen, htrav, ?_⟩
  intro fuel hf
  have h1 := htrav fuel hf
  have h2 := htrav (nodes.length + 1) (Nat.lt_succ_self _)
  cases hE : nodes.find? (fun n => n.data.nodeType == "End") with
  | none => simp [getExecutionOrder, hstart, hE]
  | some e0 => simp [getExecutionOrder, hstart, hE, h1, h2]

/-- Claim C6 witness: the dead-end graph Start → LLM (with an unreachable
End node elsewhere) terminates in two hops; the walk is fuel-stable and
`getExecutionOrder` agrees at fuel 7 and fuel 4 = |nodes| + 1. -/
theorem c6_witness :
    traverse c6Nodes c6Edges 7 (some "n0") =
      some [⟨"n0", ⟨"Start", "Start", []⟩⟩, ⟨"n2", ⟨"My LLM", "LLM", []⟩⟩] ∧
    getExecutionOrder c6Nodes c6Edges 7 = getExecutionOrder c6Nodes c6Edges (c6Nodes.length + 1) := by
  have hstart : c6Nodes.find? (fun n => n.data.nodeType == "Start") =
      some ⟨"n0", ⟨"Start", "Start", []⟩⟩ := by decide
  have hwalk : WalkTerm c6Nodes c6Edges "n0"
      [⟨"n0", ⟨"Start", "Start", []⟩⟩, ⟨"n2", ⟨"My LLM", "LLM", []⟩⟩] :=
    WalkTerm.step "n0" _ "n2" _ (by decide) (by decide) (by decide)
      (WalkTerm.deadEnd "n2" _ (by decide) (by decide) (by decide))
  have hnodup : ((([⟨"n0", ⟨"Start", "Start", []⟩⟩, ⟨"n2", ⟨"My LLM", "LLM", []⟩⟩] :
      List FlowNode)).map FlowNode.id).Nodup := by decide
  obtain ⟨h1, h2, h3⟩ := c6_termination hstart hwalk hnodup
  exact ⟨h2 7 (by decide), h3 7 (by decide)⟩

/-- Claim C7 counterexample: a non-blank unparsable temperature parameter
("abc") reaches the generation call as NaN, not as the documented default
0.7 — `parseFloat` is only bypassed for falsy (blank) strings. -/
theorem c7_counterexample :
    llmEffectiveTemperature [("temperature", "abc")] = JsNum.nan ∧
    JsNum.nan ≠ JsNum.num (7 / 10) := by
  refine ⟨by decide, by decide⟩

/-- Claim C7 (amended): blank (absent or empty) temperature,
maxOutputTokens and topK parameters of an LLM node reach the model as the
defaults 0.7, 1024 and 40 (the controller substitutes the default string
before the route parses it); an unparsable non-blank value yields NaN
instead.  The Similarity Search topK genuinely defaults to 5 both when
blank and when unparsable, because the route computes
`parseInt(topK) || 5`. -/
theorem c7_defaults (params : List (String × String)) :
    (blankParam params "temperature" = true →
      llmEffectiveTemperature params = JsNum.num (7 / 10)) ∧
    (blankParam params "maxOutputTokens" = true →
      llmEffectiveMaxOutputTokens params = JsNum.num 1024) ∧
    (blankParam params "topK" = true → llmEffectiveTopK params = JsNum.num 40) ∧
    ((blankParam params "topK" = true ∨ parseInt (paramOr params "topK" "5") = JsNum.nan) →
      searchEffectiveTopK params = 5) := by
  refine ⟨fun h => ?_, fun h => ?_, fun h => ?_, fun h => ?_⟩
  · rw [llmEffectiveTemperature, paramOr_of_blank _ _ _ h, parsedTemperature_default]
  · rw [llmEffectiveMaxOutputTokens, paramOr_of_blank _ _ _ h, parsedMaxOutputTokens_default]
  · rw [llmEffectiveTopK, paramOr_of_blank _ _ _ h, parsedTopK_default]
  · rcases h with h | h
    · rw [searchEffectiveTopK, paramOr_of_blank _ _ _ h, topKResults_default]
    · simp [searchEffectiveTopK, topKResults, h]

/-- Claim C7 witness: with an empty parameter map every parameter is
blank, so all four effective values are the documented defaults. -/
theorem c7_witness :
    llmEffectiveTemperature [] = JsNum.num (7 / 10) ∧
    llmEffectiveMaxOutputTokens [] = JsNum.num 1024 ∧
    llmEffectiveTopK [] = JsNum.num 40 ∧
    searchEffectiveTopK [] = 5 := by
  obtain ⟨h1, h2, h3, h4⟩ := c7_defaults []
  exact ⟨h1 rfl, h2 rfl, h3 rfl, h4 (Or.inl rfl)⟩

/-- Claim C8: the resolver is a deterministic, effect-free function of
the node and edge collections — it leaves the component state untouched,
a second call on the unmodified state returns the identical sequence, and
the result depends on nothing but nodes and edges. -/
theorem c8_resolve_pure (s t : BuilderState) (fuel : Nat)
    (hn : s.nodes = t.nodes) (he : s.edges = t.edges) :
    (resolveFromState s fuel).2 = s ∧
    (resolveFromState ((resolveFromState s fuel).2) fuel).1 = (resolveFromState s fuel).1 ∧
    (resolveFromState s fuel).1 = (resolveFromState t fuel).1 := by
  refine ⟨rfl, rfl, ?_⟩
  simp [resolveFromState, hn, he]

/-- Claim C8 witness: two calls on a concrete state (with a non-empty log
and a non-zero id counter) return the identical sequence and leave the
state unchanged, and a state differing only in log and counter resolves
identically. -/
theorem c8_witness :
    (resolveFromState c8State 3).2 = c8State ∧
    (resolveFromState ((resolveFromState c8State 3).2) 3).1 = (resolveFromState c8State 3).1 ∧
    (resolveFromState c8State 3).1 =
      (resolveFromState ⟨c8State.nodes, c8State.edges, [], 0⟩ 3).1 :=
  c8_resolve_pure c8State ⟨c8State.nodes, c8State.edges, [], 0⟩ 3 rfl rfl

/-- Claim C9: if every node has at most one outgoing edge, then after a
new connection is made via `onConnect` the invariant still holds; the
connection's source ends with exactly the new edge outgoing (its prior
outgoing edge was removed before the new edge was added). -/
theorem c9_single_outgoing_invariant (params : FlowEdge) {eds : List FlowEdge}
    (h : atMostOneOutgoing eds) :
    atMostOneOutgoing (onConnect params eds) ∧
    (onConnect params eds).filter (fun e => e.source == params.source) = [params] := by
  refine ⟨?_, onConnect_filter_source params eds⟩
  intro s
  cases hs : params.source == s with
  | true =>
    obtain rfl := eq_of_beq hs
    rw [onConnect_filter_source params eds]
    simp
  | false =>
    rw [onConnect, List.filter_append]
    have h1 : ([params].filter (fun e => e.source == s)) = [] := by
      simp [List.filter, hs]
    rw [h1, List.append_nil]
    have hsub : ((eds.filter (fun e => e.source != params.source)).filter
        (fun e => e.source == s)).Sublist (eds.filter (fun e => e.source == s)) :=
      List.Sublist.filter _ (List.filter_sublist eds)
    exact le_trans hsub.length_le (h s)

/-- Claim C9 witness: connecting "a" → "d" on an edge set where "a"
already feeds "b" keeps the invariant and replaces the old edge. -/
theorem c9_witness :
    atMostOneOutgoing (onConnect c9New c9Eds) ∧
    (onConnect c9New c9Eds).filter (fun e => e.source == c9New.source) = [c9New] := by
  have hinv : atMostOneOutgoing c9Eds := by
    intro s
    cases h1 : "a" == s with
    | true =>
      cases h2 : "c" == s with
      | true => exact absurd ((eq_of_beq h1).trans (eq_of_beq h2).symm) (by decide)
      | false => simp [c9Eds, List.filter, h1, h2]
    | false =>
      cases h2 : "c" == s with
      | true => simp [c9Eds, List.filter, h1, h2]
      | false => simp [c9Eds, List.filter, h1, h2]
  exact c9_single_outgoing_invariant c9New hinv

/-- Claim C10: when several edges share a source, the walk follows the
edge that occurs last in the array for that source: the node after `cid`
in the traversal is determined by the target of the last matching edge,
because later edges overwrite earlier ones in the adjacency map. -/
theorem c10_last_edge_wins {nodes : List FlowNode} {edges : List FlowEdge} {cid : String}
    {cur : FlowNode} (fuel : Nat)
    (hfind : nodes.find? (fun n => n.id == cid) = some cur)
    (hne : cur.data.nodeType ≠ "End") :
    traverse nodes edges (fuel + 1) (some cid) =
      (traverse nodes edges fuel
        (((edges.filter (fun e => e.source == cid)).getLast?).map FlowEdge.target)).map
        (fun rest => cur :: rest) := by
  simp [traverse, hfind, hne, mapGet_buildAdjacency]

/-- Claim C10 witness: Start node "s" has two outgoing edges, to "p" and
later to "q"; the walk continues at the target of the last one ("q"), and
the full resolution follows that edge. -/
theorem c10_witness :
    traverse c10Nodes c10Edges 4 (some "s") =
      (traverse c10Nodes c10Edges 3
        (((c10Edges.filter (fun e => e.source == "s")).getLast?).map FlowEdge.target)).map
        (fun rest => ⟨"s", ⟨"Start", "Start", []⟩⟩ :: rest) ∧
    ((c10Edges.filter (fun e => e.source == "s")).getLast?).map FlowEdge.target = some "q" ∧
    getExecutionOrder c10Nodes c10Edges 5 =
      some [⟨"s", ⟨"Start", "Start", []⟩⟩, ⟨"q", ⟨"Second", "LLM", []⟩⟩,
        ⟨"e", ⟨"End", "End", []⟩⟩] :=
  ⟨@c10_last_edge_wins c10Nodes c10Edges "s" ⟨"s", ⟨"Start", "Start", []⟩⟩ 3
    (by decide) (by decide), by decide, by decide⟩

end AgentBuilder
